import Mathlib

/-
Verification of the cypress-aurora-report telemetry store and
real-time synchronization engine.

Shallow embedding conventions:
  timestamps are modeled as Int epoch milliseconds; the code stores
  ISO-8601 strings, whose lexicographic SQL comparison agrees with
  numeric time order.  JSON serialization of spec-file lists, config
  and CI info is modeled by storing the value itself (JSON.stringify
  and JSON.parse are mutually inverse on these values); the config and
  ciInfo payloads are modeled as their serialized text.  SQL tables are
  lists of typed rows.
-/

namespace Aurora

/-- Test state enumeration, from TestStatus in src/types/index.ts. -/
inductive TestState
  | passed
  | failed
  | skipped
  | pending
  | retried
deriving DecidableEq, Repr

/-- Run status, from the TestRun status union and the CHECK constraint of
the test_runs table. -/
inductive RunStatus
  | running
  | completed
  | failed
  | cancelled
deriving DecidableEq, Repr

/-- Persisted TestRun entity, from the TestRun interface of
src/types/index.ts restricted to the columns of test_runs
(the results field has no column: rows note results are loaded
separately and mapRowToTestRun always returns an empty list there). -/
structure TestRun where
  id : String
  startTime : Int
  endTime : Option Int
  duration : Option Int
  totalTests : Nat
  passed : Nat
  failed : Nat
  skipped : Nat
  pending : Nat
  retries : Nat
  browserName : String
  browserVersion : String
  cypressVersion : String
  specFiles : List String
  config : String
  ciInfo : Option String
  status : RunStatus
deriving DecidableEq, Repr

/-- Persisted TestResult entity, from the TestResult interface and the
columns of test_results.  The nested error, browser and viewport objects
are flattened into their columns exactly as the INSERT of
TestResultRepositoryImpl.create does. -/
structure TestResultRow where
  id : String
  runId : String
  title : String
  fullTitle : String
  state : TestState
  duration : Int
  errorName : Option String
  errorMessage : Option String
  errorStack : Option String
  errorDiff : Option String
  screenshotPath : Option String
  retries : Nat
  currentRetry : Nat
  pending : Bool
  file : String
  parent : String
  context : Option String
  tags : Option (List String)
  startTime : Int
  endTime : Option Int
  browserName : Option String
  browserVersion : Option String
  viewportWidth : Option Nat
  viewportHeight : Option Nat
deriving DecidableEq, Repr

/-- Screenshot row, from the screenshots table of DatabaseSchema. -/
structure ScreenshotRow where
  id : String
  testResultId : String
  name : String
  path : String
  takenAt : Int
deriving DecidableEq, Repr

/-- The relational store: the three cascading tables. -/
structure Store where
  runs : List TestRun
  results : List TestResultRow
  screenshots : List ScreenshotRow
deriving DecidableEq, Repr

/-- Referential integrity, as enforced by the FOREIGN KEY clauses of
test_results and screenshots. -/
def Store.wf (s : Store) : Prop :=
  (∀ r ∈ s.results, ∃ run ∈ s.runs, run.id = r.runId) ∧
  (∀ sh ∈ s.screenshots, ∃ r ∈ s.results, r.id = sh.testResultId)

instance (s : Store) : Decidable s.wf := by
  unfold Store.wf
  infer_instance

/-! ### create and findById for TestRun (TestRunRepository.ts) -/

/-- JS `duration || null` used by TestRunRepositoryImpl.create: the
number 0 is falsy, so a zero duration is stored as NULL. -/
def jsNumOrNull (d : Option Int) : Option Int :=
  match d with
  | some n => if n = 0 then none else some n
  | none => none

/-- TestRunRepositoryImpl.create: assign the generated id and INSERT the
marshalled row.  Returns the entity handed back to the caller and the
table after insertion. -/
def createTestRun (generatedId : String) (run : TestRun) (runs : List TestRun) :
    TestRun × List TestRun :=
  let entity := { run with id := generatedId }
  let row := { entity with duration := jsNumOrNull entity.duration }
  (entity, runs ++ [row])

/-- TestRunRepositoryImpl.mapRowToTestRun: rebuild the entity from a row
(results are loaded separately and are not part of the persisted entity). -/
def mapRowToTestRun (r : TestRun) : TestRun :=
  { id := r.id
    startTime := r.startTime
    endTime := r.endTime
    duration := r.duration
    totalTests := r.totalTests
    passed := r.passed
    failed := r.failed
    skipped := r.skipped
    pending := r.pending
    retries := r.retries
    browserName := r.browserName
    browserVersion := r.browserVersion
    cypressVersion := r.cypressVersion
    specFiles := r.specFiles
    config := r.config
    ciInfo := r.ciInfo
    status := r.status }

/-- TestRunRepositoryImpl.findById: SELECT the row with the id, if any. -/
def findRunById (id : String) (runs : List TestRun) : Option TestRun :=
  (runs.find? (fun r => r.id = id)).map mapRowToTestRun

/-! ### Reflection-driven partial updates (both repositories) -/

/-- camelToSnakeCase from both repositories:
str.replace of every upper-case letter by underscore plus lower case. -/
def camelToSnakeCase (s : String) : String :=
  String.mk ((s.toList.map
    (fun c => if c.isUpper then ['_', c.toLower] else [c])).flatten)

/-- One SET item of a dynamic UPDATE: the column name the code computed
and the typed effect of assigning the bound parameter. -/
structure SetClause (α : Type) where
  column : String
  assign : α → α

/-- The columns of the test_runs table (DatabaseSchema.createTestRunsTable). -/
def testRunsColumns : List String :=
  ["id", "start_time", "end_time", "duration", "total_tests", "passed",
   "failed", "skipped", "pending", "retries", "browser_name",
   "browser_version", "cypress_version", "spec_files", "config", "ci_info",
   "status", "created_at", "updated_at"]

/-- The columns of the test_results table
(DatabaseSchema.createTestResultsTable). -/
def testResultsColumns : List String :=
  ["id", "run_id", "title", "full_title", "state", "duration", "error_name",
   "error_message", "error_stack", "error_diff", "screenshot_path",
   "retries", "current_retry", "pending", "file", "parent", "context",
   "tags", "start_time", "end_time", "browser_name", "browser_version",
   "viewport_width", "viewport_height", "created_at", "updated_at"]

/-- Partial patch for a TestRun, one optional field per persisted entity
field (Partial of TestRun; the id key is skipped by the update loop and
kept here to model patches whose only defined key is id). -/
structure TestRunPatch where
  id : Option String := none
  startTime : Option Int := none
  endTime : Option Int := none
  duration : Option Int := none
  totalTests : Option Nat := none
  passed : Option Nat := none
  failed : Option Nat := none
  skipped : Option Nat := none
  pending : Option Nat := none
  retries : Option Nat := none
  browserName : Option String := none
  browserVersion : Option String := none
  cypressVersion : Option String := none
  specFiles : Option (List String) := none
  config : Option String := none
  ciInfo : Option String := none
  status : Option RunStatus := none
deriving DecidableEq, Repr

/-- TestRunRepositoryImpl.update clause building: for every defined
non-id key push one SET item named camelToSnakeCase of the key (dates are
serialized, specFiles, config and ciInfo are JSON-stringified, the rest
bound directly). -/
def TestRunPatch.setClauses (p : TestRunPatch) : List (SetClause TestRun) :=
  (match p.startTime with
   | some v => [⟨camelToSnakeCase "startTime", fun r => { r with startTime := v }⟩]
   | none => []) ++
  (match p.endTime with
   | some v => [⟨camelToSnakeCase "endTime", fun r => { r with endTime := some v }⟩]
   | none => []) ++
  (match p.duration with
   | some v => [⟨camelToSnakeCase "duration", fun r => { r with duration := some v }⟩]
   | none => []) ++
  (match p.totalTests with
   | some v => [⟨camelToSnakeCase "totalTests", fun r => { r with totalTests := v }⟩]
   | none => []) ++
  (match p.passed with
   | some v => [⟨camelToSnakeCase "passed", fun r => { r with passed := v }⟩]
   | none => []) ++
  (match p.failed with
   | some v => [⟨camelToSnakeCase "failed", fun r => { r with failed := v }⟩]
   | none => []) ++
  (match p.skipped with
   | some v => [⟨camelToSnakeCase "skipped", fun r => { r with skipped := v }⟩]
   | none => []) ++
  (match p.pending with
   | some v => [⟨camelToSnakeCase "pending", fun r => { r with pending := v }⟩]
   | none => []) ++
  (match p.retries with
   | some v => [⟨camelToSnakeCase "retries", fun r => { r with retries := v }⟩]
   | none => []) ++
  (match p.browserName with
   | some v => [⟨camelToSnakeCase "browserName", fun r => { r with browserName := v }⟩]
   | none => []) ++
  (match p.browserVersion with
   | some v => [⟨camelToSnakeCase "browserVersion", fun r => { r with browserVersion := v }⟩]
   | none => []) ++
  (match p.cypressVersion with
   | some v => [⟨camelToSnakeCase "cypressVersion", fun r => { r with cypressVersion := v }⟩]
   | none => []) ++
  (match p.specFiles with
   | some v => [⟨camelToSnakeCase "specFiles", fun r => { r with specFiles := v }⟩]
   | none => []) ++
  (match p.config with
   | some v => [⟨camelToSnakeCase "config", fun r => { r with config := v }⟩]
   | none => []) ++
  (match p.ciInfo with
   | some v => [⟨camelToSnakeCase "ciInfo", fun r => { r with ciInfo := some v }⟩]
   | none => []) ++
  (match p.status with
   | some v => [⟨camelToSnakeCase "status", fun r => { r with status := v }⟩]
   | none => [])

/-- Error object of a TestResult patch (TestError of src/types/index.ts,
the four persisted components). -/
structure TestErrorPatch where
  name : String
  message : String
  stack : Option String := none
  diff : Option String := none
deriving DecidableEq, Repr

/-- Browser object of a TestResult patch. -/
structure BrowserPatch where
  name : String
  version : String
deriving DecidableEq, Repr

/-- Viewport object of a TestResult patch. -/
structure ViewportPatch where
  width : Nat
  height : Nat
deriving DecidableEq, Repr

/-- Partial patch for a TestResult (Partial of TestResult). -/
structure TestResultPatch where
  id : Option String := none
  runId : Option String := none
  title : Option String := none
  fullTitle : Option String := none
  state : Option TestState := none
  duration : Option Int := none
  error : Option TestErrorPatch := none
  screenshot : Option String := none
  retries : Option Nat := none
  currentRetry : Option Nat := none
  pending : Option Bool := none
  file : Option String := none
  parent : Option String := none
  context : Option String := none
  tags : Option (List String) := none
  startTime : Option Int := none
  endTime : Option Int := none
  browser : Option BrowserPatch := none
  viewport : Option ViewportPatch := none
deriving DecidableEq, Repr

/-- TestResultRepositoryImpl.update clause building: dates serialized;
the error object expands to the four error columns; tags are
JSON-stringified; browser and viewport expand to their column pairs;
every other defined key falls to the default branch, whose column name
is camelToSnakeCase of the key. -/
def TestResultPatch.setClauses (p : TestResultPatch) : List (SetClause TestResultRow) :=
  (match p.runId with
   | some v => [⟨camelToSnakeCase "runId", fun r => { r with runId := v }⟩]
   | none => []) ++
  (match p.title with
   | some v => [⟨camelToSnakeCase "title", fun r => { r with title := v }⟩]
   | none => []) ++
  (match p.fullTitle with
   | some v => [⟨camelToSnakeCase "fullTitle", fun r => { r with fullTitle := v }⟩]
   | none => []) ++
  (match p.state with
   | some v => [⟨camelToSnakeCase "state", fun r => { r with state := v }⟩]
   | none => []) ++
  (match p.duration with
   | some v => [⟨camelToSnakeCase "duration", fun r => { r with duration := v }⟩]
   | none => []) ++
  (match p.error with
   | some e =>
     [⟨"error_name", fun r => { r with errorName := some e.name }⟩,
      ⟨"error_message", fun r => { r with errorMessage := some e.message }⟩,
      ⟨"error_stack", fun r => { r with errorStack := e.stack }⟩,
      ⟨"error_diff", fun r => { r with errorDiff := e.diff }⟩]
   | none => []) ++
  (match p.screenshot with
   | some v => [⟨camelToSnakeCase "screenshot", fun r => { r with screenshotPath := some v }⟩]
   | none => []) ++
  (match p.retries with
   | some v => [⟨camelToSnakeCase "retries", fun r => { r with retries := v }⟩]
   | none => []) ++
  (match p.currentRetry with
   | some v => [⟨camelToSnakeCase "currentRetry", fun r => { r with currentRetry := v }⟩]
   | none => []) ++
  (match p.pending with
   | some v => [⟨camelToSnakeCase "pending", fun r => { r with pending := v }⟩]
   | none => []) ++
  (match p.file with
   | some v => [⟨camelToSnakeCase "file", fun r => { r with file := v }⟩]
   | none => []) ++
  (match p.parent with
   | some v => [⟨camelToSnakeCase "parent", fun r => { r with parent := v }⟩]
   | none => []) ++
  (match p.context with
   | some v => [⟨camelToSnakeCase "context", fun r => { r with context := some v }⟩]
   | none => []) ++
  (match p.tags with
   | some v => [⟨camelToSnakeCase "tags", fun r => { r with tags := some v }⟩]
   | none => []) ++
  (match p.startTime with
   | some v => [⟨camelToSnakeCase "startTime", fun r => { r with startTime := v }⟩]
   | none => []) ++
  (match p.endTime with
   | some v => [⟨camelToSnakeCase "endTime", fun r => { r with endTime := some v }⟩]
   | none => []) ++
  (match p.browser with
   | some b =>
     [⟨"browser_name", fun r => { r with browserName := some b.name }⟩,
      ⟨"browser_version", fun r => { r with browserVersion := some b.version }⟩]
   | none => []) ++
  (match p.viewport with
   | some v =>
     [⟨"viewport_width", fun r => { r with viewportWidth := some v.width }⟩,
      ⟨"viewport_height", fun r => { r with viewportHeight := some v.height }⟩]
   | none => [])

/-- Apply a list of SET items to one row. -/
def applySetClauses (cs : List (SetClause α)) (r : α) : α :=
  cs.foldl (fun acc c => c.assign acc) r

/-- Execute the dynamic UPDATE ... SET ... WHERE id = ?.  A SET item
naming a column absent from the table is an SQL error before any row is
touched; otherwise the matching rows are rewritten and an empty change
count raises the not-found error of the repository. -/
def sqlUpdate (cols : List String) (cs : List (SetClause α)) (idOf : α → String)
    (id : String) (notFoundMsg : String) (rows : List α) :
    Except String (List α) :=
  match cs.find? (fun c => ¬ cols.contains c.column) with
  | some c => .error ("no such column: " ++ c.column)
  | none =>
    if rows.any (fun r => idOf r = id) then
      .ok (rows.map (fun r => if idOf r = id then applySetClauses cs r else r))
    else
      .error notFoundMsg

/-- TestRunRepositoryImpl.update: empty clause list returns with
nothing to update, otherwise the dynamic UPDATE runs. -/
def updateTestRun (id : String) (p : TestRunPatch) (runs : List TestRun) :
    Except String (List TestRun) :=
  if p.setClauses.isEmpty then .ok runs
  else sqlUpdate testRunsColumns p.setClauses TestRun.id id
    ("Test run not found: " ++ id) runs

/-- TestResultRepositoryImpl.update, same shape. -/
def updateTestResult (id : String) (p : TestResultPatch)
    (results : List TestResultRow) : Except String (List TestResultRow) :=
  if p.setClauses.isEmpty then .ok results
  else sqlUpdate testResultsColumns p.setClauses TestResultRow.id id
    ("Test result not found: " ++ id) results

/-! ### delete with cascade (TestRunRepository.delete plus the schema) -/

/-- Outcome of a DELETE: the resulting store and whether the repository
raised its not-found error (changes equal to zero). -/
structure DeleteOutcome where
  store : Store
  notFound : Bool
deriving Repr

/-- TestRunRepositoryImpl.delete: DELETE FROM test_runs WHERE id = ?,
cascading per the schema: test_results rows referencing a deleted run go
with it (FOREIGN KEY ... ON DELETE CASCADE), and screenshots referencing
a deleted result go with those (FOREIGN KEY cascade and the
trg_test_results_delete_screenshots trigger). -/
def deleteTestRun (id : String) (s : Store) : DeleteOutcome :=
  let keptRuns := s.runs.filter (fun r => r.id ≠ id)
  if s.runs.length = keptRuns.length then
    { store := s, notFound := true }
  else
    { store :=
        { runs := keptRuns
          results := s.results.filter (fun r => r.runId ≠ id)
          screenshots := s.screenshots.filter (fun sh =>
            ¬ s.results.any (fun r => r.id = sh.testResultId ∧ r.runId = id)) }
      notFound := false }

/-! ### retention cleanup (DatabaseManager.cleanupOldData) -/

/-- Milliseconds in one day. -/
def dayMs : Int := 86400000

/-- DatabaseManager.cleanupOldData: cutoff is now minus retentionDays
days; deleteOlderThan removes runs with start_time strictly before the
cutoff (cascading as in deleteTestRun), and an additional pass removes
every screenshot with taken_at strictly before the cutoff.  Returns the
store and the deletedRuns count (the change count of the run DELETE). -/
def cleanupOldData (retentionDays : Nat) (now : Int) (s : Store) : Store × Nat :=
  let cutoff := now - retentionDays * dayMs
  let keptRuns := s.runs.filter (fun r => ¬ r.startTime < cutoff)
  let keptResults := s.results.filter (fun r =>
    ¬ s.runs.any (fun run => run.id = r.runId ∧ run.startTime < cutoff))
  let shotsAfterCascade := s.screenshots.filter (fun sh =>
    ¬ s.results.any (fun r => r.id = sh.testResultId ∧
      s.runs.any (fun run => run.id = r.runId ∧ run.startTime < cutoff)))
  let keptShots := shotsAfterCascade.filter (fun sh => ¬ sh.takenAt < cutoff)
  ({ runs := keptRuns, results := keptResults, screenshots := keptShots },
   s.runs.length - keptRuns.length)

/-! ### Flaky test detector (TestResultRepositoryImpl.findFlaky) -/

/-- One output group of the flaky query: full_title, file, COUNT and the
failure SUM.  The flaky rate is the derived quotient below. -/
structure FlakyTest where
  testTitle : String
  specFile : String
  totalRuns : Nat
  failures : Nat
deriving DecidableEq, Repr

/-- flaky_rate: CAST(failures AS FLOAT) / COUNT, modeled as the exact
rational quotient failures over total (mkRat keeps the definition
kernel-computable; the bridging lemma below states it literally equals
the cast quotient). -/
def FlakyTest.flakyRate (g : FlakyTest) : ℚ :=
  mkRat g.failures g.totalRuns

/-- ORDER BY flaky_rate DESC, total_runs DESC as a total preorder:
a may come before b when its rate is larger, or equal with at least the
total of b. -/
def flakyOrder (a b : FlakyTest) : Prop :=
  b.flakyRate < a.flakyRate ∨ (a.flakyRate = b.flakyRate ∧ b.totalRuns ≤ a.totalRuns)

instance : DecidableRel flakyOrder := fun a b => by
  unfold flakyOrder; infer_instance

instance : IsTotal FlakyTest flakyOrder := by
  constructor
  intro a b
  rcases lt_trichotomy a.flakyRate b.flakyRate with h | h | h
  · exact Or.inr (Or.inl h)
  · rcases Nat.le_total b.totalRuns a.totalRuns with h2 | h2
    · exact Or.inl (Or.inr ⟨h, h2⟩)
    · exact Or.inr (Or.inr ⟨h.symm, h2⟩)
  · exact Or.inl (Or.inl h)

instance : IsTrans FlakyTest flakyOrder := by
  constructor
  intro a b c hab hbc
  rcases hab with h1 | ⟨h1, h1t⟩
  · rcases hbc with h2 | ⟨h2, _⟩
    · exact Or.inl (h2.trans h1)
    · exact Or.inl (h2 ▸ h1)
  · rcases hbc with h2 | ⟨h2, h2t⟩
    · exact Or.inl (h1 ▸ h2)
    · exact Or.inr ⟨h1.trans h2, h2t.trans h1t⟩

/-- WHERE start_time >= DATE(now, -30 days): rows inside the trailing
window; the cutoff timestamp is a parameter of the embedding. -/
def inWindow (cutoff : Int) (r : TestResultRow) : Bool :=
  cutoff ≤ r.startTime

/-- GROUP BY full_title, file. -/
def flakyKey (r : TestResultRow) : String × String :=
  (r.fullTitle, r.file)

/-- COUNT(*) of a group among the window rows. -/
def groupTotal (ws : List TestResultRow) (k : String × String) : Nat :=
  (ws.filter (fun r => flakyKey r = k)).length

/-- SUM(CASE WHEN state = failed THEN 1 ELSE 0 END) of a group. -/
def groupFailures (ws : List TestResultRow) (k : String × String) : Nat :=
  (ws.filter (fun r => flakyKey r = k ∧ r.state = TestState.failed)).length

/-- The aggregate row of one (full_title, file) group. -/
def mkFlakyGroup (ws : List TestResultRow) (k : String × String) : FlakyTest :=
  { testTitle := k.1, specFile := k.2,
    totalRuns := groupTotal ws k, failures := groupFailures ws k }

/-- TestResultRepositoryImpl.findFlaky: restrict to the window, group by
(full_title, file), keep groups HAVING total_runs >= 5 AND
flaky_rate >= threshold AND flaky_rate < 1.0, ORDER BY flaky_rate DESC,
total_runs DESC. -/
def findFlaky (threshold : ℚ) (cutoff : Int) (rows : List TestResultRow) :
    List FlakyTest :=
  let ws := rows.filter (inWindow cutoff)
  let keys := (ws.map flakyKey).dedup
  let groups := keys.map (mkFlakyGroup ws)
  let sel := groups.filter
    (fun g => 5 ≤ g.totalRuns ∧ threshold ≤ g.flakyRate ∧ g.flakyRate < 1)
  List.insertionSort flakyOrder sel

/-! ### Multi-predicate filtering (TestResultRepositoryImpl.findWithFilters) -/

/-- DurationFilter of src/types/index.ts. -/
structure DurationFilter where
  min : Option Int := none
  max : Option Int := none
deriving DecidableEq, Repr

/-- DateRange of src/types/index.ts. -/
structure DateRange where
  start : Int
  «end» : Int
deriving DecidableEq, Repr

/-- TestFilter of src/types/index.ts. -/
structure TestFilter where
  status : Option (List TestState) := none
  specFiles : Option (List String) := none
  dateRange : Option DateRange := none
  duration : Option DurationFilter := none
  search : Option String := none
  tags : Option (List String) := none
  browser : Option (List String) := none
  retries : Option Bool := none
  hasScreenshots : Option Bool := none
deriving DecidableEq, Repr

/-- ASCII lower-casing, since SQLite LIKE compares ASCII letters
case-insensitively. -/
def likeNorm (s : String) : List Char :=
  s.toList.map Char.toLower

/-- Substring containment on character lists. -/
def containsSub (needle hay : List Char) : Bool :=
  hay.tails.any (fun t => needle.isPrefixOf t)

/-- column LIKE percent pat percent. -/
def sqlLike (pat s : String) : Bool :=
  containsSub (likeNorm pat) (likeNorm s)

/-- JSON.stringify of a string array, as stored in the tags column. -/
def serializeTags (ts : List String) : String :=
  "[" ++ String.intercalate "," (ts.map (fun t => "\"" ++ t ++ "\"")) ++ "]"

/-- state IN (...) when a non-empty status list is supplied. -/
def statusPred (f : TestFilter) (x : TestResultRow) : Bool :=
  match f.status with
  | some l => if l.isEmpty then true else l.contains x.state
  | none => true

/-- file IN (...) when a non-empty specFiles list is supplied. -/
def specFilesPred (f : TestFilter) (x : TestResultRow) : Bool :=
  match f.specFiles with
  | some l => if l.isEmpty then true else l.contains x.file
  | none => true

/-- duration >= min and duration <= max for the bounds supplied. -/
def durationPred (f : TestFilter) (x : TestResultRow) : Bool :=
  match f.duration with
  | some d =>
    (match d.min with
     | some m => decide (m ≤ x.duration)
     | none => true) &&
    (match d.max with
     | some m => decide (x.duration ≤ m)
     | none => true)
  | none => true

/-- title LIKE ? OR full_title LIKE ? OR error_message LIKE ?; an empty
search string is falsy in JS and adds no condition; a NULL error message
never matches. -/
def searchPred (f : TestFilter) (x : TestResultRow) : Bool :=
  match f.search with
  | some q =>
    if q = "" then true
    else sqlLike q x.title || sqlLike q x.fullTitle ||
      (match x.errorMessage with
       | some m => sqlLike q m
       | none => false)
  | none => true

/-- tags LIKE percent quoted-tag percent, one disjunct per requested tag,
against the serialized tag set; a NULL tags column never matches. -/
def tagsPred (f : TestFilter) (x : TestResultRow) : Bool :=
  match f.tags with
  | some l =>
    if l.isEmpty then true
    else l.any (fun t =>
      match x.tags with
      | some ts => sqlLike ("\"" ++ t ++ "\"") (serializeTags ts)
      | none => false)
  | none => true

/-- browser_name IN (...) when a non-empty browser list is supplied. -/
def browserPred (f : TestFilter) (x : TestResultRow) : Bool :=
  match f.browser with
  | some l =>
    if l.isEmpty then true
    else
      match x.browserName with
      | some b => l.contains b
      | none => false
  | none => true

/-- retries > 0, added only when the retries flag is defined and true. -/
def retriesPred (f : TestFilter) (x : TestResultRow) : Bool :=
  match f.retries with
  | some true => decide (0 < x.retries)
  | _ => true

/-- screenshot_path IS NOT NULL or IS NULL, per the flag. -/
def hasScreenshotsPred (f : TestFilter) (x : TestResultRow) : Bool :=
  match f.hasScreenshots with
  | some true => x.screenshotPath.isSome
  | some false => x.screenshotPath.isNone
  | none => true

/-- start_time >= range.start AND start_time <= range.end. -/
def dateRangePred (f : TestFilter) (x : TestResultRow) : Bool :=
  match f.dateRange with
  | some dr => decide (dr.start ≤ x.startTime) && decide (x.startTime ≤ dr.«end»)
  | none => true

/-- WHERE conjunction of all supplied filter conditions, in the order the
code pushes them. -/
def matchesFilters (f : TestFilter) (x : TestResultRow) : Bool :=
  statusPred f x && specFilesPred f x && durationPred f x && searchPred f x &&
  tagsPred f x && browserPred f x && retriesPred f x &&
  hasScreenshotsPred f x && dateRangePred f x

/-- ORDER BY start_time DESC as a total preorder on result rows. -/
def startTimeDesc (a b : TestResultRow) : Prop :=
  b.startTime ≤ a.startTime

instance : DecidableRel startTimeDesc := fun a b => by
  unfold startTimeDesc; infer_instance

instance : IsTotal TestResultRow startTimeDesc :=
  ⟨fun a b => (Int.le_total b.startTime a.startTime).imp id id⟩

instance : IsTrans TestResultRow startTimeDesc :=
  ⟨fun _ _ _ hab hbc => le_trans hbc hab⟩

/-- TestResultRepositoryImpl.findWithFilters without pagination: the rows
passing every supplied condition, ordered by start time descending. -/
def findWithFilters (f : TestFilter) (rows : List TestResultRow) :
    List TestResultRow :=
  List.insertionSort startTimeDesc (rows.filter (matchesFilters f))

/-! ### TestRun findAll with status mapping (TestRunRepository.findAll) -/

/-- TestRunRepositoryImpl.mapTestStatusToRunStatus: failed maps to
failed, passed maps to completed, every other test status contributes
nothing; the Set constructor then removes duplicates. -/
def mapTestStatusToRunStatus (ts : List TestState) : List RunStatus :=
  ((if ts.contains TestState.failed then [RunStatus.failed] else []) ++
   (if ts.contains TestState.passed then [RunStatus.completed] else [])).dedup

/-- start_time range condition of findAll. -/
def runDateRangePred (f : TestFilter) (x : TestRun) : Bool :=
  match f.dateRange with
  | some dr => decide (dr.start ≤ x.startTime) && decide (x.startTime ≤ dr.«end»)
  | none => true

/-- browser_name IN (...) condition of findAll. -/
def runBrowserPred (f : TestFilter) (x : TestRun) : Bool :=
  match f.browser with
  | some l => if l.isEmpty then true else l.contains x.browserName
  | none => true

/-- status IN (...) condition of findAll: built from the mapped run
statuses and dropped entirely when the mapped list is empty. -/
def runStatusPred (f : TestFilter) (x : TestRun) : Bool :=
  match f.status with
  | some l =>
    if l.isEmpty then true
    else
      let rs := mapTestStatusToRunStatus l
      if rs.isEmpty then true else rs.contains x.status
  | none => true

/-- ORDER BY start_time DESC on runs. -/
def runStartTimeDesc (a b : TestRun) : Prop :=
  b.startTime ≤ a.startTime

instance : DecidableRel runStartTimeDesc := fun a b => by
  unfold runStartTimeDesc; infer_instance

instance : IsTotal TestRun runStartTimeDesc :=
  ⟨fun a b => (Int.le_total b.startTime a.startTime).imp id id⟩

instance : IsTrans TestRun runStartTimeDesc :=
  ⟨fun _ _ _ hab hbc => le_trans hbc hab⟩

/-- TestRunRepositoryImpl.findAll: optional dateRange, browser and mapped
status conditions, conjoined, ordered by start time descending. -/
def findAllRuns (f : Option TestFilter) (runs : List TestRun) : List TestRun :=
  let flt :=
    match f with
    | some f =>
      runs.filter (fun x => runDateRangePred f x && runBrowserPred f x &&
        runStatusPred f x)
    | none => runs
  List.insertionSort runStartTimeDesc flt

/-! ### Reporter run lifecycle (src/reporter/index.ts) -/

/-- Terminal statuses per the state machine of the spec. -/
def RunStatus.isTerminal : RunStatus → Bool
  | .running => false
  | .completed => true
  | .failed => true
  | .cancelled => true

/-- AuroraReporter.handleRunStart: the fresh current run, status running,
all aggregate counts zero.  Environment-derived strings are modeled by
their defaults. -/
def newRun (id : String) (now : Int) : TestRun :=
  { id := id
    startTime := now
    endTime := none
    duration := none
    totalTests := 0
    passed := 0
    failed := 0
    skipped := 0
    pending := 0
    retries := 0
    browserName := "unknown"
    browserVersion := "unknown"
    cypressVersion := "unknown"
    specFiles := []
    config := "\x7b\x7d"
    ciInfo := none
    status := .running }

/-- Mocha lifecycle events consumed by the reporter.  Each test event
carries the fullTitle key under which the reporter stores the result. -/
inductive REvent
  | runStart (id : String) (now : Int)
  | runEnd (now : Int)
  | testStart (t : String)
  | testPass (t : String)
  | testFail (t : String)
  | testPending (t : String)
  | testRetry (t : String)
deriving DecidableEq, Repr

/-- Whether an event is the run-end event. -/
def REvent.isRunEnd : REvent → Bool
  | .runEnd _ => true
  | _ => false

/-- Reporter state: the mutable current run and the testResults map,
keyed by fullTitle.  Only the state component of each collected
TestResult matters to run finalization, so results are projected to it. -/
structure ReporterState where
  currentRun : Option TestRun
  testResults : List (String × TestState)
deriving DecidableEq, Repr

/-- Map.set on the fullTitle-keyed results map. -/
def setResult (k : String) (v : TestState) (m : List (String × TestState)) :
    List (String × TestState) :=
  if m.any (fun e => e.1 = k) then
    m.map (fun e => if e.1 = k then (k, v) else e)
  else
    m ++ [(k, v)]

/-- Number of collected results in a given state. -/
def countState (m : List (String × TestState)) (st : TestState) : Nat :=
  (m.filter (fun e => e.2 = st)).length

/-- AuroraReporter.handleRunEnd aggregate computation on the current run:
totals and per-state counts from the collected results, and the final
status: failed when any result failed, completed otherwise. -/
def finalizeRun (run : TestRun) (now : Int) (m : List (String × TestState)) :
    TestRun :=
  { run with
    endTime := some now
    duration := some (now - run.startTime)
    totalTests := m.length
    passed := countState m .passed
    failed := countState m .failed
    skipped := countState m .skipped
    pending := countState m .pending
    status := if 0 < countState m .failed then .failed else .completed }

/-- One reporter transition per Mocha event, from the handlers of
AuroraReporter: run start replaces the current run; run end finalizes it
when present; test start and pending store a pending entry; pass and
fail rewrite an existing entry and warn-return when the key is missing;
retry bumps the retry counter of the current run. -/
def reporterStep (s : ReporterState) : REvent → ReporterState
  | .runStart id now =>
    { currentRun := some (newRun id now), testResults := s.testResults }
  | .runEnd now =>
    match s.currentRun with
    | none => s
    | some run =>
      { s with currentRun := some (finalizeRun run now s.testResults) }
  | .testStart t => { s with testResults := setResult t .pending s.testResults }
  | .testPass t =>
    if s.testResults.any (fun e => e.1 = t) then
      { s with testResults := setResult t .passed s.testResults }
    else s
  | .testFail t =>
    if s.testResults.any (fun e => e.1 = t) then
      { s with testResults := setResult t .failed s.testResults }
    else s
  | .testPending t =>
    { s with testResults := setResult t .pending s.testResults }
  | .testRetry _ =>
    { s with currentRun := s.currentRun.map (fun r => { r with retries := r.retries + 1 }) }

/-- Reporter before any event. -/
def reporterInit : ReporterState :=
  { currentRun := none, testResults := [] }

/-- Run the reporter over a list of events. -/
def runReporter (s : ReporterState) (evs : List REvent) : ReporterState :=
  evs.foldl reporterStep s

/-! ### Room-scoped broadcast hub (src/server/WebSocketManager.ts) -/

/-- Session-facing hub actions: joining and leaving run-scoped rooms,
disconnecting, and a room broadcast of one payload. -/
inductive WAction
  | subscribe (sid room : String)
  | unsubscribe (sid room : String)
  | disconnect (sid : String)
  | emit (room payload : String)
deriving DecidableEq, Repr

/-- Hub state: current room memberships and the log of room deliveries,
one (session, room, payload) triple per delivered event. -/
structure HubState where
  members : List (String × String)
  delivered : List (String × String × String)
deriving DecidableEq, Repr

/-- One hub transition: socket.join is idempotent; socket.leave removes
one membership; disconnect deregisters the session from every room;
io.to(room).emit delivers the payload to every current member of the
room, and to nobody else. -/
def hubStep (s : HubState) : WAction → HubState
  | .subscribe sid room =>
    if s.members.contains (sid, room) then s
    else { s with members := s.members ++ [(sid, room)] }
  | .unsubscribe sid room =>
    { s with members := s.members.filter (fun m => m ≠ (sid, room)) }
  | .disconnect sid =>
    { s with members := s.members.filter (fun m => m.1 ≠ sid) }
  | .emit room payload =>
    let sent := (s.members.filter (fun m => m.2 = room)).map
      (fun m => (m.1, room, payload))
    { s with delivered := s.delivered ++ sent }

/-- Hub with no sessions and nothing delivered. -/
def hubInit : HubState :=
  { members := [], delivered := [] }

/-- Run the hub over a list of actions. -/
def runHub (s : HubState) (acts : List WAction) : HubState :=
  acts.foldl hubStep s

/-- The payloads a session received from one room, in delivery order. -/
def receivedBy (sid room : String) (s : HubState) : List String :=
  s.delivered.filterMap
    (fun d => if d.1 = sid ∧ d.2.1 = room then some d.2.2 else none)

/-- The payloads a session should receive from one room per the claim:
exactly the events emitted to the room while the session is a member,
tracked by a membership flag along the trace. -/
def expectedRecv (sid room : String) (isMem : Bool) : List WAction → List String
  | [] => []
  | a :: rest =>
    match a with
    | .subscribe s r =>
      expectedRecv sid room (if s = sid ∧ r = room then true else isMem) rest
    | .unsubscribe s r =>
      expectedRecv sid room (if s = sid ∧ r = room then false else isMem) rest
    | .disconnect s =>
      expectedRecv sid room (if s = sid then false else isMem) rest
    | .emit r p =>
      (if r = room ∧ isMem then [p] else []) ++ expectedRecv sid room isMem rest

/-! ### Concrete data used by witnesses and counterexamples -/

/-- A test result row with unremarkable defaults. -/
def baseResult : TestResultRow :=
  { id := "t0"
    runId := "r0"
    title := "test"
    fullTitle := "suite test"
    state := .passed
    duration := 10
    errorName := none
    errorMessage := none
    errorStack := none
    errorDiff := none
    screenshotPath := none
    retries := 0
    currentRetry := 0
    pending := false
    file := "spec.cy.ts"
    parent := "suite"
    context := none
    tags := none
    startTime := 0
    endTime := none
    browserName := some "chrome"
    browserVersion := some "1"
    viewportWidth := none
    viewportHeight := none }

/-- A test run with unremarkable defaults. -/
def baseRun : TestRun :=
  { id := "r0"
    startTime := 0
    endTime := none
    duration := none
    totalTests := 0
    passed := 0
    failed := 0
    skipped := 0
    pending := 0
    retries := 0
    browserName := "chrome"
    browserVersion := "1"
    cypressVersion := "13"
    specFiles := ["spec.cy.ts"]
    config := "\x7b\x7d"
    ciInfo := none
    status := .completed }

/-- Ten results of one test inside the window, two of them failed. -/
def flakyRows10 : List TestResultRow :=
  (List.range 10).map (fun i =>
    { baseResult with
      id := toString i
      fullTitle := "suite flaky"
      state := if i < 2 then .failed else .passed
      startTime := (i : Int) })

/-- Five results of one test inside the window, all failed. -/
def flakyRows5 : List TestResultRow :=
  (List.range 5).map (fun i =>
    { baseResult with
      id := toString i
      fullTitle := "suite always"
      state := .failed
      startTime := (i : Int) })

/-- Three passed and two failed results with distinct start times. -/
def c4Rows : List TestResultRow :=
  [{ baseResult with id := "p1", state := .passed, startTime := 1 },
   { baseResult with id := "f1", state := .failed, startTime := 2 },
   { baseResult with id := "p2", state := .passed, startTime := 3 },
   { baseResult with id := "f2", state := .failed, startTime := 4 },
   { baseResult with id := "p3", state := .passed, startTime := 5 }]

/-- An existing test result targeted by the screenshot patch. -/
def c3Result : TestResultRow :=
  { baseResult with id := "t1" }

/-- A run whose duration is the falsy number 0. -/
def c5RunZero : TestRun :=
  { baseRun with duration := some 0 }

/-- A run whose duration is a positive number. -/
def c5RunOk : TestRun :=
  { baseRun with duration := some 5 }

/-- Two runs with dependent results and a screenshot of the first. -/
def c2Store : Store :=
  { runs := [{ baseRun with id := "r1" }, { baseRun with id := "r2" }]
    results := [{ baseResult with id := "x1", runId := "r1" },
                { baseResult with id := "x2", runId := "r2" }]
    screenshots := [{ id := "s1", testResultId := "x1", name := "n",
                      path := "p", takenAt := 0 }] }

/-- A store whose single run starts exactly at the retention cutoff while
its screenshot was taken before the cutoff. -/
def c6Store : Store :=
  { runs := [{ baseRun with id := "r1", startTime := 0 }]
    results := [{ baseResult with id := "x1", runId := "r1", startTime := 0 }]
    screenshots := [{ id := "s1", testResultId := "x1", name := "n",
                      path := "p", takenAt := -1 }] }

/-- A short reporter trace without a run-end event: one failed and one
passed test inside one run. -/
def c7Events : List REvent :=
  [.runStart "r1" 0, .testStart "a", .testFail "a", .testStart "b", .testPass "b"]

/-- The reporter state reached by that trace. -/
def c7State : ReporterState :=
  runReporter reporterInit c7Events

/-! ## Theorems -/

/-- Structure eta for the entity rebuilt by mapRowToTestRun. -/
theorem mapRowToTestRun_eq (r : TestRun) : mapRowToTestRun r = r := rfl

/-- find? over an append whose left part never matches the id. -/
theorem find_run_append_fresh (gen : String) (runs : List TestRun) (row : TestRun)
    (h : ∀ r ∈ runs, r.id ≠ gen) :
    (runs ++ [row]).find? (fun r => r.id = gen) =
      if row.id = gen then some row else none := by
  induction runs with
  | nil =>
    by_cases hrow : row.id = gen <;>
      simp [List.find?, hrow]
  | cons a l ih =>
    have ha : ¬ a.id = gen := h a (List.mem_cons_self a l)
    have := ih (fun r hr => h r (List.mem_cons_of_mem a hr))
    simpa [List.find?, ha] using this

set_option maxHeartbeats 1000000 in
/-- Claim C9: an update whose patch defines no field besides possibly the
id key builds an empty SET clause list, so both repositories return
successfully without running any statement and without a not-found
failure, on every store, including stores that have no row of that id. -/
theorem c9_empty_patch_update (idq : String) (oid : Option String)
    (runs : List TestRun) (res : List TestResultRow) :
    updateTestRun idq { id := oid } runs = .ok runs ∧
    updateTestResult idq { id := oid } res = .ok res :=
  ⟨rfl, rfl⟩

/-- Claim C3, code bug at the screenshot field: the reflective column
name computed for the patch key screenshot is the string screenshot,
which is not a column of test_results (the column is screenshot_path),
so patching the screenshot of an existing row raises an SQL
unknown-column error instead of updating the column. -/
theorem c3_screenshot_patch_sql_error :
    updateTestResult "t1" { screenshot := some "shot.png" } [c3Result]
      = .error "no such column: screenshot" ∧
    camelToSnakeCase "screenshot" = "screenshot" ∧
    testResultsColumns.contains "screenshot" = false ∧
    testResultsColumns.contains "screenshot_path" = true := by
  refine ⟨rfl, rfl, by decide, by decide⟩

/-- Claim C5, counterexample: a run created with duration 0 is stored
with a NULL duration by the falsy-or marshalling, so the fetched entity
differs from the created one. -/
theorem c5_duration_zero_counterexample :
    findRunById "fresh1" (createTestRun "fresh1" c5RunZero []).2
      ≠ some (createTestRun "fresh1" c5RunZero []).1 := by
  have hL : (findRunById "fresh1" (createTestRun "fresh1" c5RunZero []).2).map
      TestRun.duration = some none := rfl
  have hR : (some (createTestRun "fresh1" c5RunZero []).1).map TestRun.duration
      = some (some 0) := rfl
  intro h
  rw [congrArg (Option.map TestRun.duration) h, hR] at hL
  exact Option.noConfusion (Option.some.inj hL)

/-- Claim C5 (amended): creating a run and fetching it by the returned id
yields the created entity with its duration passed through the falsy-or
marshalling; in particular the round trip is field-for-field exact
whenever the duration is not the number 0 (zero is read back as absent). -/
theorem c5_roundtrip_amended (gen : String) (e : TestRun) (runs : List TestRun)
    (hfresh : ∀ r ∈ runs, r.id ≠ gen) :
    findRunById gen (createTestRun gen e runs).2
      = some { (createTestRun gen e runs).1 with duration := jsNumOrNull e.duration } ∧
    (e.duration ≠ some 0 →
      findRunById gen (createTestRun gen e runs).2
        = some (createTestRun gen e runs).1) := by
  have hfind : (createTestRun gen e runs).2.find? (fun r => r.id = gen)
      = some { e with id := gen, duration := jsNumOrNull e.duration } := by
    have : (createTestRun gen e runs).2
        = runs ++ [{ e with id := gen, duration := jsNumOrNull e.duration }] := rfl
    rw [this, find_run_append_fresh gen runs _ hfresh]
    simp
  have hmain : findRunById gen (createTestRun gen e runs).2
      = some { (createTestRun gen e runs).1 with duration := jsNumOrNull e.duration } := by
    unfold findRunById
    rw [hfind]
    rfl
  refine ⟨hmain, fun hdur => ?_⟩
  have : jsNumOrNull e.duration = e.duration := by
    cases hd : e.duration with
    | none => rfl
    | some n =>
      have hn : n ≠ 0 := by
        intro hz
        exact hdur (by rw [hd, hz])
      simp [jsNumOrNull, hn]
  rw [hmain, this]
  rfl

/-- Claim C5, witness: the amended round trip at a concrete run with a
positive duration in an empty store. -/
theorem c5_roundtrip_witness :
    c5RunOk.duration ≠ some 0 ∧
    findRunById "g" (createTestRun "g" c5RunOk []).2
      = some (createTestRun "g" c5RunOk []).1 :=
  ⟨by decide, (c5_roundtrip_amended "g" c5RunOk [] (by simp)).2 (by decide)⟩

/-- Filtering a list keeps its length exactly when every element passes. -/
theorem length_filter_eq_iff (l : List α) (p : α → Bool) :
    l.length = (l.filter p).length ↔ ∀ x ∈ l, p x = true := by
  constructor
  · intro h
    have := (List.filter_sublist (l := l) (p := p)).eq_of_length h.symm
    intro x hx
    exact List.of_mem_filter (this ▸ hx)
  · intro h
    rw [List.filter_eq_self.mpr h]

/-- Claim C2: deleting a TestRun raises the not-found failure exactly
when no row has the id (leaving the store unchanged), and otherwise
removes that run, every TestResult owned by it and every Screenshot
owned by those results, preserving referential integrity. -/
theorem c2_delete_run_cascade (id : String) (s : Store) :
    ((deleteTestRun id s).notFound = true ↔ ∀ r ∈ s.runs, r.id ≠ id) ∧
    ((deleteTestRun id s).notFound = true → (deleteTestRun id s).store = s) ∧
    ((deleteTestRun id s).notFound = false →
      (deleteTestRun id s).store.runs = s.runs.filter (fun r => r.id ≠ id) ∧
      (deleteTestRun id s).store.results = s.results.filter (fun r => r.runId ≠ id) ∧
      (deleteTestRun id s).store.screenshots = s.screenshots.filter (fun sh =>
        ¬ s.results.any (fun r => r.id = sh.testResultId ∧ r.runId = id))) ∧
    (s.wf → (deleteTestRun id s).store.wf) := by
  have hlen := length_filter_eq_iff s.runs (fun r => decide (r.id ≠ id))
  by_cases hc : s.runs.length = (s.runs.filter (fun r => decide (r.id ≠ id))).length
  · have hall : ∀ r ∈ s.runs, r.id ≠ id := by
      intro r hr
      simpa using hlen.mp hc r hr
    have hnf : deleteTestRun id s = { store := s, notFound := true } := by
      simp only [deleteTestRun]
      rw [if_pos hc]
    rw [hnf]
    refine ⟨by simpa using hall, fun _ => rfl, by simp, fun hwf => hwf⟩
  · have hnf : deleteTestRun id s =
        { store :=
            { runs := s.runs.filter (fun r => r.id ≠ id)
              results := s.results.filter (fun r => r.runId ≠ id)
              screenshots := s.screenshots.filter (fun sh =>
                ¬ s.results.any (fun r => r.id = sh.testResultId ∧ r.runId = id)) }
          notFound := false } := by
      simp only [deleteTestRun]
      rw [if_neg hc]
    rw [hnf]
    refine ⟨?_, by simp, fun _ => ⟨rfl, rfl, rfl⟩, ?_⟩
    · simp only [Bool.false_eq_true, false_iff]
      intro hall
      exact hc (hlen.mpr (fun x hx => by simpa using hall x hx))
    · rintro ⟨hres, hsh⟩
      constructor
      · intro r hr
        have hr2 := List.mem_filter.mp hr
        obtain ⟨run, hrun, hid⟩ := hres r hr2.1
        refine ⟨run, List.mem_filter.mpr ⟨hrun, ?_⟩, hid⟩
        have : r.runId ≠ id := by simpa using hr2.2
        simp [hid, this]
      · intro sh hsh2
        have h2 := List.mem_filter.mp hsh2
        obtain ⟨r, hrm, hid⟩ := hsh sh h2.1
        have hno : ¬ s.results.any (fun r => r.id = sh.testResultId ∧ r.runId = id) := by
          simpa using h2.2
        have hrid : r.runId ≠ id := by
          intro hend
          exact hno (List.any_eq_true.mpr ⟨r, hrm, by simp [hid, hend]⟩)
        exact ⟨r, List.mem_filter.mpr ⟨hrm, by simpa using hrid⟩, hid⟩

/-- Claim C2, witness: deleting an existing run from a well-formed
concrete store keeps the store well-formed. -/
theorem c2_delete_witness :
    c2Store.wf ∧ Store.wf (deleteTestRun "r1" c2Store).store :=
  ⟨by decide, (c2_delete_run_cascade "r1" c2Store).2.2.2 (by decide)⟩

/-- Subtracting the survivors of a Boolean filter counts the rows the
complementary filter keeps. -/
theorem length_sub_filter (l : List α) (p : α → Bool) :
    l.length - (l.filter (fun x => !(p x))).length = (l.filter p).length := by
  induction l with
  | nil => rfl
  | cons a t ih =>
    have hle := List.length_filter_le (fun x => !(p x)) t
    cases h : p a <;>
      simp [List.filter_cons, h, Nat.succ_sub_succ] <;>
      omega

/-- Claim C6, counterexample: with retentionDays 30 and a store whose
single run starts exactly at the cutoff, no run is deleted and the
deleted count is 0, yet the screenshot taken before the cutoff is
removed even though its owning result and run survive. -/
theorem c6_cleanup_counterexample :
    (cleanupOldData 30 (30 * dayMs) c6Store).2 = 0 ∧
    (cleanupOldData 30 (30 * dayMs) c6Store).1.runs = c6Store.runs ∧
    (cleanupOldData 30 (30 * dayMs) c6Store).1.results = c6Store.results ∧
    (cleanupOldData 30 (30 * dayMs) c6Store).1.screenshots = [] ∧
    c6Store.screenshots ≠ [] := by
  refine ⟨rfl, rfl, rfl, rfl, by decide⟩

/-- Claim C6 (amended): retention cleanup deletes exactly the TestRun
rows older than the cutoff together with their cascaded TestResult and
Screenshot rows, plus every Screenshot row whose capture time is older
than the cutoff even when its parents survive; the returned count equals
the number of TestRun rows removed. -/
theorem c6_cleanup_amended (d : Nat) (now : Int) (s : Store) :
    ((cleanupOldData d now s).2
      = (s.runs.filter (fun r => r.startTime < now - d * dayMs)).length) ∧
    (∀ run : TestRun, run ∈ (cleanupOldData d now s).1.runs ↔
      run ∈ s.runs ∧ ¬ run.startTime < now - d * dayMs) ∧
    (∀ r : TestResultRow, r ∈ (cleanupOldData d now s).1.results ↔
      r ∈ s.results ∧
      ¬ ∃ run ∈ s.runs, run.id = r.runId ∧ run.startTime < now - d * dayMs) ∧
    (∀ sh : ScreenshotRow, sh ∈ (cleanupOldData d now s).1.screenshots ↔
      sh ∈ s.screenshots ∧
      (¬ ∃ r ∈ s.results, r.id = sh.testResultId ∧
        ∃ run ∈ s.runs, run.id = r.runId ∧ run.startTime < now - d * dayMs) ∧
      ¬ sh.takenAt < now - d * dayMs) := by
  refine ⟨?_, ?_, ?_, ?_⟩
  · have h1 : (fun (r : TestRun) => decide (¬ r.startTime < now - d * dayMs))
        = (fun (r : TestRun) => !(decide (r.startTime < now - d * dayMs))) := by
      funext r
      exact decide_not
    simp only [cleanupOldData]
    rw [h1]
    exact length_sub_filter s.runs _
  · intro run
    simp [cleanupOldData, List.mem_filter]
  · intro r
    simp [cleanupOldData, List.mem_filter, List.any_eq_true]
  · intro sh
    simp [cleanupOldData, List.mem_filter, List.any_eq_true]
    tauto

/-- Claim C10: the status filter of TestRun findAll maps failed to
failed and passed to completed only; any other requested status adds
nothing, and when the mapped list is empty the status condition is
dropped, so a filter requesting only skipped returns runs of every
status. -/
theorem c10_status_mapping :
    (∀ ts : List TestState,
      mapTestStatusToRunStatus ts =
        (if TestState.failed ∈ ts then [RunStatus.failed] else []) ++
        (if TestState.passed ∈ ts then [RunStatus.completed] else [])) ∧
    (∀ runs : List TestRun,
      findAllRuns (some { status := some [TestState.skipped] }) runs
        = findAllRuns none runs) ∧
    (∀ (runs : List TestRun) (ts : List TestState),
      mapTestStatusToRunStatus ts = [] →
      findAllRuns (some { status := some ts }) runs = findAllRuns none runs) := by
  refine ⟨?_, ?_, ?_⟩
  · intro ts
    by_cases h1 : TestState.failed ∈ ts <;> by_cases h2 : TestState.passed ∈ ts <;>
      simp [mapTestStatusToRunStatus, List.contains, h1, h2]
  · intro runs
    simp [findAllRuns, runDateRangePred, runBrowserPred, runStatusPred,
      mapTestStatusToRunStatus]
  · intro runs ts h
    simp [findAllRuns, runDateRangePred, runBrowserPred, runStatusPred, h]

/-- Claim C10, witness: a status filter naming only skipped and retried
maps to no run status and returns the unfiltered run list. -/
theorem c10_witness :
    findAllRuns
      (some { status := some [TestState.skipped, TestState.retried] }) [baseRun]
      = findAllRuns none [baseRun] :=
  c10_status_mapping.2.2 [baseRun] [TestState.skipped, TestState.retried] (by decide)

/-- A collected-results count is positive exactly when a result with the
state exists. -/
theorem countState_pos_iff (m : List (String × TestState)) (st : TestState) :
    0 < countState m st ↔ ∃ e ∈ m, e.2 = st := by
  simp [countState, List.length_pos, List.eq_nil_iff_forall_not_mem, List.mem_filter]

/-- A step on any event other than run-end leaves a running current run
running. -/
theorem reporterStep_keeps_running (s : ReporterState) (e : REvent)
    (hne : e.isRunEnd = false)
    (hinv : ∀ r, s.currentRun = some r → r.status = RunStatus.running) :
    ∀ r, (reporterStep s e).currentRun = some r → r.status = RunStatus.running := by
  intro r hr
  cases e with
  | runStart id now =>
    simp only [reporterStep] at hr
    cases hr
    rfl
  | runEnd now => exact Bool.noConfusion hne
  | testStart t =>
    exact hinv r hr
  | testPass t =>
    have : (reporterStep s (.testPass t)).currentRun = s.currentRun := by
      simp only [reporterStep]
      split <;> rfl
    exact hinv r (this ▸ hr)
  | testFail t =>
    have : (reporterStep s (.testFail t)).currentRun = s.currentRun := by
      simp only [reporterStep]
      split <;> rfl
    exact hinv r (this ▸ hr)
  | testPending t =>
    exact hinv r hr
  | testRetry t =>
    simp only [reporterStep] at hr
    cases hcur : s.currentRun with
    | none => rw [hcur] at hr; cases hr
    | some r0 =>
      rw [hcur] at hr
      simp only [Option.map_some'] at hr
      cases hr
      exact hinv r0 hcur

/-- Along a trace without a run-end event, any current run stays in
status running. -/
theorem reporter_no_runEnd_running (evs : List REvent) (s : ReporterState)
    (hinv : ∀ r, s.currentRun = some r → r.status = RunStatus.running)
    (hno : ∀ e ∈ evs, e.isRunEnd = false) :
    ∀ r, (runReporter s evs).currentRun = some r → r.status = RunStatus.running := by
  induction evs generalizing s with
  | nil => exact hinv
  | cons a t ih =>
    exact ih (reporterStep s a)
      (reporterStep_keeps_running s a (hno a (List.mem_cons_self a t)) hinv)
      (fun e he => hno e (List.mem_cons_of_mem a he))

/-- Claim C7: before any run-end event the current run status is always
running (never terminal), and the run-end step finalizes the current run
from the collected results: total equals the number of collected
results, each per-state count equals the number of results in that
state, and the status becomes the terminal failed exactly when some
result failed and completed otherwise. -/
theorem c7_run_end_finalizes :
    (∀ evs : List REvent, (∀ e ∈ evs, e.isRunEnd = false) →
      ∀ r : TestRun, (runReporter reporterInit evs).currentRun = some r →
        r.status = RunStatus.running) ∧
    (∀ (s : ReporterState) (run : TestRun) (now : Int),
      s.currentRun = some run →
      (reporterStep s (.runEnd now)).currentRun
        = some (finalizeRun run now s.testResults)) ∧
    (∀ (run : TestRun) (now : Int) (m : List (String × TestState)),
      (finalizeRun run now m).totalTests = m.length ∧
      (finalizeRun run now m).passed = countState m .passed ∧
      (finalizeRun run now m).failed = countState m .failed ∧
      (finalizeRun run now m).skipped = countState m .skipped ∧
      (finalizeRun run now m).pending = countState m .pending ∧
      ((finalizeRun run now m).status
        = if 0 < countState m .failed then RunStatus.failed
          else RunStatus.completed) ∧
      (finalizeRun run now m).status.isTerminal = true ∧
      ((finalizeRun run now m).status = RunStatus.failed ↔
        ∃ e ∈ m, e.2 = TestState.failed)) := by
  refine ⟨?_, ?_, ?_⟩
  · intro evs hno r hr
    exact reporter_no_runEnd_running evs reporterInit (by intro r0 h0; cases h0) hno r hr
  · intro s run now h
    simp [reporterStep, h]
  · intro run now m
    refine ⟨rfl, rfl, rfl, rfl, rfl, rfl, ?_, ?_⟩
    · simp only [finalizeRun]
      split <;> rfl
    · rw [← countState_pos_iff]
      simp only [finalizeRun]
      split_ifs with hc
      · simp [hc]
      · simp [hc]

/-- Claim C7, witness: the concrete trace with one failed and one passed
test keeps the run in status running, and the run-end step finalizes it
with the failed status computation. -/
theorem c7_witness :
    (runReporter reporterInit c7Events).currentRun = some (newRun "r1" 0) ∧
    (newRun "r1" 0).status = RunStatus.running ∧
    (reporterStep c7State (.runEnd 100)).currentRun
      = some (finalizeRun (newRun "r1" 0) 100 c7State.testResults) ∧
    (finalizeRun (newRun "r1" 0) 100 c7State.testResults).status
      = (if 0 < countState c7State.testResults .failed then RunStatus.failed
         else RunStatus.completed) := by
  have h1 : (runReporter reporterInit c7Events).currentRun = some (newRun "r1" 0) := rfl
  have h2 : c7State.currentRun = some (newRun "r1" 0) := rfl
  exact ⟨h1, c7_run_end_finalizes.1 c7Events (by decide) (newRun "r1" 0) h1,
    c7_run_end_finalizes.2.1 c7State (newRun "r1" 0) 100 h2,
    (c7_run_end_finalizes.2.2 (newRun "r1" 0) 100 c7State.testResults).2.2.2.2.2.1⟩

set_option maxHeartbeats 1000000 in
/-- Claim C4: findWithFilters returns exactly the rows passing the
conjunction of every supplied predicate, ordered by start time
descending; in particular status equal to failed on three passed and two
failed rows returns exactly the two failed rows, newest first. -/
theorem c4_filter_conjunction :
    (∀ (f : TestFilter) (rows : List TestResultRow),
      (findWithFilters f rows).Perm (rows.filter (fun x =>
        statusPred f x && specFilesPred f x && durationPred f x &&
        searchPred f x && tagsPred f x && browserPred f x &&
        retriesPred f x && hasScreenshotsPred f x && dateRangePred f x)) ∧
      List.Sorted startTimeDesc (findWithFilters f rows)) ∧
    findWithFilters { status := some [TestState.failed] } c4Rows =
      [{ baseResult with id := "f2", state := .failed, startTime := 4 },
       { baseResult with id := "f1", state := .failed, startTime := 2 }] := by
  refine ⟨fun f rows => ⟨?_, ?_⟩, by decide⟩
  · exact List.perm_insertionSort startTimeDesc _
  · exact List.sorted_insertionSort startTimeDesc _

/-- Membership characterization of the flaky detector: a group is
reported exactly when it is the aggregate of some (full title, file) key
occurring inside the window, has at least five rows, and its failure
rate lies in the half-open interval from the threshold up to (but
excluding) one. -/
theorem findFlaky_mem_iff (t : ℚ) (cutoff : Int) (rows : List TestResultRow)
    (g : FlakyTest) :
    g ∈ findFlaky t cutoff rows ↔
      ((∃ r ∈ rows, cutoff ≤ r.startTime ∧
          g = mkFlakyGroup (rows.filter (inWindow cutoff)) (r.fullTitle, r.file)) ∧
        5 ≤ g.totalRuns ∧ t ≤ g.flakyRate ∧ g.flakyRate < 1) := by
  have hmem : g ∈ findFlaky t cutoff rows ↔
      g ∈ ((rows.filter (inWindow cutoff)).map flakyKey).dedup.map
        (mkFlakyGroup (rows.filter (inWindow cutoff))) ∧
      (5 ≤ g.totalRuns ∧ t ≤ g.flakyRate ∧ g.flakyRate < 1) := by
    unfold findFlaky
    rw [(List.perm_insertionSort flakyOrder _).mem_iff, List.mem_filter]
    simp
  rw [hmem]
  constructor
  · rintro ⟨hg, hcnt⟩
    refine ⟨?_, hcnt⟩
    obtain ⟨k, hk, hgk⟩ := List.mem_map.mp hg
    obtain ⟨r, hr, hkey⟩ := List.mem_map.mp (List.mem_dedup.mp hk)
    have hrw := List.mem_filter.mp hr
    refine ⟨r, hrw.1, ?_, ?_⟩
    · simpa [inWindow] using hrw.2
    · rw [← hgk, ← hkey]
      rfl
  · rintro ⟨⟨r, hr, hwin, hgdef⟩, hcnt⟩
    refine ⟨?_, hcnt⟩
    apply List.mem_map.mpr
    refine ⟨(r.fullTitle, r.file), ?_, hgdef.symm⟩
    apply List.mem_dedup.mpr
    apply List.mem_map.mpr
    exact ⟨r, List.mem_filter.mpr ⟨hr, by simpa [inWindow] using hwin⟩, rfl⟩

set_option maxHeartbeats 1000000 in
/-- Claim C1: findFlaky reports exactly the (full title, file) groups of
the stored rows inside the trailing window whose total is at least five
and whose failure rate lies between the threshold (inclusive) and one
(exclusive), sorted by rate then total, both descending; ten results
with two failures are reported at threshold one tenth but not at three
tenths, and five results all failing are never reported. -/
theorem c1_flaky_detector :
    (∀ (t : ℚ) (cutoff : Int) (rows : List TestResultRow) (g : FlakyTest),
      g ∈ findFlaky t cutoff rows ↔
        ((∃ r ∈ rows, cutoff ≤ r.startTime ∧
            g = mkFlakyGroup (rows.filter (inWindow cutoff)) (r.fullTitle, r.file)) ∧
          5 ≤ g.totalRuns ∧ t ≤ g.flakyRate ∧ g.flakyRate < 1)) ∧
    (∀ (t : ℚ) (cutoff : Int) (rows : List TestResultRow),
      List.Sorted flakyOrder (findFlaky t cutoff rows)) ∧
    (∀ g : FlakyTest, g.flakyRate = (g.failures : ℚ) / (g.totalRuns : ℚ)) ∧
    (findFlaky (mkRat 1 10) 0 flakyRows10
      = [{ testTitle := "suite flaky", specFile := "spec.cy.ts",
           totalRuns := 10, failures := 2 }]) ∧
    (findFlaky (mkRat 3 10) 0 flakyRows10 = []) ∧
    (∀ t : ℚ, findFlaky t 0 flakyRows5 = []) := by
  refine ⟨findFlaky_mem_iff, ?_, ?_, by decide, by decide, ?_⟩
  · intro t cutoff rows
    unfold findFlaky
    exact List.sorted_insertionSort flakyOrder _
  · intro g
    simp [FlakyTest.flakyRate, Rat.mkRat_eq_div]
  · intro t
    rw [List.eq_nil_iff_forall_not_mem]
    intro g hg
    rw [findFlaky_mem_iff] at hg
    obtain ⟨⟨r, hr, _, hgdef⟩, _, _, hlt⟩ := hg
    have hkey : ∀ x ∈ flakyRows5, x.fullTitle = "suite always" ∧ x.file = "spec.cy.ts" := by
      decide
    obtain ⟨ht, hf⟩ := hkey r hr
    have hgval : g = (⟨"suite always", "spec.cy.ts", 5, 5⟩ : FlakyTest) := by
      rw [hgdef, ht, hf]
      decide
    have h1 : FlakyTest.flakyRate ⟨"suite always", "spec.cy.ts", 5, 5⟩ = 1 := by
      decide
    rw [hgval, h1] at hlt
    exact lt_irrefl _ hlt

/-- What one room broadcast contributes to the log entries a session
sees from an observed room: exactly one payload when the emitted room is
the observed one and the session is currently a member (memberships are
duplicate-free), nothing otherwise. -/
theorem emit_delivery (sid room r p : String) (l : List (String × String)) :
    l.Nodup →
    ((l.filter (fun m => m.2 = r)).map (fun m => (m.1, r, p))).filterMap
      (fun d => if d.1 = sid ∧ d.2.1 = room then some d.2.2 else none)
    = if r = room ∧ (sid, room) ∈ l then [p] else [] := by
  induction l with
  | nil =>
    intro _
    simp
  | cons a tl ih =>
    intro hl
    rcases List.nodup_cons.mp hl with ⟨ha, htl⟩
    have htail := ih htl
    obtain ⟨a1, a2⟩ := a
    by_cases h2 : a2 = r
    · subst h2
      rw [show List.filter (fun m => decide (m.2 = a2)) ((a1, a2) :: tl)
          = (a1, a2) :: List.filter (fun m => decide (m.2 = a2)) tl from
          List.filter_cons_of_pos (by simp)]
      simp only [List.map_cons, List.filterMap_cons]
      by_cases h1 : a1 = sid ∧ a2 = room
      · obtain ⟨e1, e2⟩ := h1
        subst e1
        subst e2
        rw [if_pos ⟨rfl, rfl⟩, htail,
          if_neg (fun hcon => ha hcon.2),
          if_pos ⟨rfl, List.mem_cons_self _ _⟩]
      · rw [if_neg h1, htail]
        by_cases hr : a2 = room
        · subst hr
          have hns : ¬ sid = a1 := fun he => h1 ⟨he.symm, rfl⟩
          simp [List.mem_cons, Prod.mk.injEq, hns]
        · simp [hr]
    · rw [show List.filter (fun m => decide (m.2 = r)) ((a1, a2) :: tl)
          = List.filter (fun m => decide (m.2 = r)) tl from
          List.filter_cons_of_neg (by simpa using h2)]
      rw [htail]
      by_cases hr : r = room
      · subst hr
        have hns : ¬ (sid, r) = (a1, a2) := by
          intro he
          exact h2 ((congrArg Prod.snd he).symm)
        simp [List.mem_cons, hns]
      · simp [hr]

/-- Simulation of the hub against the per-session expected reception:
starting from any duplicate-free membership table, what a session
receives from a room along a trace is what it already received plus the
events emitted to that room while it is a member. -/
theorem receivedBy_runHub (sid room : String) (acts : List WAction) :
    ∀ st : HubState, st.members.Nodup →
      receivedBy sid room (runHub st acts)
        = receivedBy sid room st ++
          expectedRecv sid room (decide ((sid, room) ∈ st.members)) acts := by
  induction acts with
  | nil =>
    intro st _
    simp [runHub, expectedRecv]
  | cons a tl ih =>
    intro st h
    have hrun : runHub st (a :: tl) = runHub (hubStep st a) tl := rfl
    rw [hrun]
    cases a with
    | subscribe s' r' =>
      have hcons : expectedRecv sid room (decide ((sid, room) ∈ st.members))
          (WAction.subscribe s' r' :: tl)
          = expectedRecv sid room
            (if s' = sid ∧ r' = room then true
             else decide ((sid, room) ∈ st.members)) tl := rfl
      rw [hcons]
      by_cases hc : (s', r') ∈ st.members
      · have hstep : hubStep st (.subscribe s' r') = st := by
          simp [hubStep, List.contains, hc]
        rw [hstep, ih st h]
        have hflag : (if s' = sid ∧ r' = room then true
            else decide ((sid, room) ∈ st.members))
            = decide ((sid, room) ∈ st.members) := by
          by_cases hsr : s' = sid ∧ r' = room
          · rw [if_pos hsr]
            obtain ⟨e1, e2⟩ := hsr
            subst e1
            subst e2
            simp [hc]
          · rw [if_neg hsr]
        rw [hflag]
      · have hstep : hubStep st (.subscribe s' r')
            = { st with members := st.members ++ [(s', r')] } := by
          simp [hubStep, List.contains, hc]
        have hnd : (st.members ++ [(s', r')]).Nodup := by
          simp [List.nodup_append, h, hc]
        rw [hstep, ih _ hnd]
        have hflag : decide ((sid, room) ∈
              ({ st with members := st.members ++ [(s', r')] } : HubState).members)
            = (if s' = sid ∧ r' = room then true
               else decide ((sid, room) ∈ st.members)) := by
          by_cases hsr : s' = sid ∧ r' = room
          · obtain ⟨e1, e2⟩ := hsr
            subst e1
            subst e2
            simp
          · have hns : ¬ (sid, room) = (s', r') := by
              intro he
              exact hsr ⟨(congrArg Prod.fst he).symm, (congrArg Prod.snd he).symm⟩
            rw [if_neg hsr]
            simp only [List.mem_append, List.mem_singleton]
            simp [hns]
        rw [hflag]
        rfl
    | unsubscribe s' r' =>
      have hcons : expectedRecv sid room (decide ((sid, room) ∈ st.members))
          (WAction.unsubscribe s' r' :: tl)
          = expectedRecv sid room
            (if s' = sid ∧ r' = room then false
             else decide ((sid, room) ∈ st.members)) tl := rfl
      rw [hcons]
      have hnd : (st.members.filter (fun m => m ≠ (s', r'))).Nodup :=
        h.filter _
      rw [show hubStep st (.unsubscribe s' r')
          = { st with members := st.members.filter (fun m => m ≠ (s', r')) } from rfl,
        ih _ hnd]
      have hflag : decide ((sid, room) ∈
            st.members.filter (fun m => m ≠ (s', r')))
          = (if s' = sid ∧ r' = room then false
             else decide ((sid, room) ∈ st.members)) := by
        by_cases hsr : s' = sid ∧ r' = room
        · obtain ⟨e1, e2⟩ := hsr
          subst e1
          subst e2
          simp [List.mem_filter]
        · have hns : ¬ (sid, room) = (s', r') := by
            intro he
            exact hsr ⟨(congrArg Prod.fst he).symm, (congrArg Prod.snd he).symm⟩
          rw [if_neg hsr]
          simp [List.mem_filter, hns]
      rw [hflag]
      rfl
    | disconnect s' =>
      have hcons : expectedRecv sid room (decide ((sid, room) ∈ st.members))
          (WAction.disconnect s' :: tl)
          = expectedRecv sid room
            (if s' = sid then false
             else decide ((sid, room) ∈ st.members)) tl := rfl
      rw [hcons]
      have hnd : (st.members.filter (fun m => m.1 ≠ s')).Nodup :=
        h.filter _
      rw [show hubStep st (.disconnect s')
          = { st with members := st.members.filter (fun m => m.1 ≠ s') } from rfl,
        ih _ hnd]
      have hflag : decide ((sid, room) ∈ st.members.filter (fun m => m.1 ≠ s'))
          = (if s' = sid then false
             else decide ((sid, room) ∈ st.members)) := by
        by_cases hs : s' = sid
        · subst hs
          simp [List.mem_filter]
        · have hns : ¬ sid = s' := fun he => hs he.symm
          rw [if_neg hs]
          simp [List.mem_filter, hns]
      rw [hflag]
      rfl
    | emit r' p =>
      have hmem : (hubStep st (.emit r' p)).members = st.members := rfl
      rw [ih _ (by rw [hmem]; exact h), hmem]
      have hrecv : receivedBy sid room (hubStep st (.emit r' p))
          = receivedBy sid room st ++
            (if r' = room ∧ (sid, room) ∈ st.members then [p] else []) := by
        show List.filterMap _ (st.delivered ++
            (st.members.filter (fun m => m.2 = r')).map (fun m => (m.1, r', p)))
            = _
        rw [List.filterMap_append]
        congr 1
        exact emit_delivery sid room r' p st.members h
      rw [hrecv, List.append_assoc]
      have hcons : expectedRecv sid room (decide ((sid, room) ∈ st.members))
          (WAction.emit r' p :: tl)
          = (if r' = room ∧ decide ((sid, room) ∈ st.members) = true
             then [p] else []) ++
            expectedRecv sid room (decide ((sid, room) ∈ st.members)) tl := rfl
      rw [hcons]
      have hif : (if r' = room ∧ (sid, room) ∈ st.members then [p] else [])
          = (if r' = room ∧ decide ((sid, room) ∈ st.members) = true
             then [p] else []) := by
        simp
      rw [hif]

set_option maxHeartbeats 1000000 in
/-- Claim C8: a session receives from a run-scoped room exactly the
events emitted to that room while it is a member: the hub delivery log
projected to one session and room equals the expected reception along
the trace; concretely, an event emitted before subscribing is missed
while one emitted after is received, and nothing emitted while
disconnected is replayed after resubscribing. -/
theorem c8_room_delivery :
    (∀ (acts : List WAction) (sid room : String),
      receivedBy sid room (runHub hubInit acts)
        = expectedRecv sid room false acts) ∧
    (receivedBy "s" "run-room" (runHub hubInit
      [.emit "run-room" "E1", .subscribe "s" "run-room", .emit "run-room" "E2"])
      = ["E2"]) ∧
    (receivedBy "s" "run-room" (runHub hubInit
      [.subscribe "s" "run-room", .emit "run-room" "E0", .disconnect "s",
       .emit "run-room" "E1", .subscribe "s" "run-room", .emit "run-room" "E2"])
      = ["E0", "E2"]) := by
  refine ⟨?_, by decide, by decide⟩
  intro acts sid room
  have hmain := receivedBy_runHub sid room acts hubInit List.nodup_nil
  simpa [hubInit, receivedBy] using hmain

end Aurora
